import Mathlib

/-!
Verification of the command-line parameter declaration and resolution layer
of CommandLineParameterProvider.ts, shallowly embedded in Lean.

Modelling conventions:
- JavaScript Map objects become association lists with in-place overwrite,
  preserving insertion order (mapGet, mapSet).
- The parameter objects live in the provider store (the _parameters list, in
  push order); metadata entries refer to a parameter object by its index in
  that store, modelling the object reference held by IParameterMetadata.
- Methods that mutate the provider and may throw return a triple of an
  Except result, the provider state at the moment of return, and the static
  key counter, which is threaded explicitly because it is a static class
  field shared by all provider instances of the process.
- JavaScript truthiness is modelled where the source relies on it: the check
  on definition.options, the check on definition.defaultValue, the check on
  existingKey, and the double negation applied to definition.required.
- Errors are modelled as structured data carrying exactly the values that the
  source interpolates into the thrown message.
-/

/-- Modelled from the spec: CommandLineParameter.ts is missing from the sources, so
the runtime parameter handle follows spec section 3: a key correlating the handle
with the raw parser output, and a value that is initially unset. Converter functions
are elided because every call site in CommandLineParameterProvider.ts passes an
undefined converter. -/
structure CommandLineParameter (V : Type) where
  _key : String
  value : Option V
deriving Repr, DecidableEq

/-- Modelled from the spec: the flat mapping from internal keys to raw parsed values
produced by the external tokenizer (spec sections 1 and 6). -/
abbrev ICommandLineParserData (V : Type) := List (String × V)

/-- Lookup in an association list, modelling the get method of a JavaScript Map. -/
def mapGet (m : List (String × α)) (k : String) : Option α :=
  match m with
  | [] => none
  | (k1, v) :: rest => if k1 = k then some v else mapGet rest k

/-- Update in an association list, modelling the set method of a JavaScript Map: an
existing entry is overwritten in place, a new key is appended at the end. -/
def mapSet (m : List (String × α)) (k : String) (v : α) : List (String × α) :=
  match m with
  | [] => [(k, v)]
  | (k1, v1) :: rest => if k1 = k then (k, v) :: rest else (k1, v1) :: mapSet rest k v

/-- Modelled from the spec: the value fill of spec section 4.4 step 1 sets the value
of a parameter from the raw mapping entry for its key, an absent entry leaving the
value unset. -/
def CommandLineParameter._setValue (p : CommandLineParameter V)
    (data : ICommandLineParserData V) : CommandLineParameter V :=
  { p with value := mapGet data p._key }

/-- Modelled from the spec: CommandLineDefinition.ts is missing from the sources;
spec section 3 lists the fields of a parameter definition. Optional fields use
Option, and the provider source applies JavaScript truthiness to them where noted. -/
structure IBaseCommandLineDefinition (V : Type) where
  parameterLongName : String
  parameterShortName : Option String := none
  description : String := ""
  required : Option Bool := none
  defaultValue : Option V := none
  key : Option String := none
deriving Repr, DecidableEq

/-- Modelled from the spec: the definition of an enumerated-option parameter adds the
closed set of legal string values; it is an Option so that an absent array, which the
source checks for, is representable. -/
structure ICommandLineOptionDefinition extends IBaseCommandLineDefinition String where
  options : Option (List String) := none
deriving Repr, DecidableEq

/-- A value stored in the argparse argument-options bag built by the provider. -/
inductive ArgOpt (V : Type) where
  | str : String → ArgOpt V
  | strList : List String → ArgOpt V
  | val : Option V → ArgOpt V
deriving Repr, DecidableEq

/-- One addArgument call recorded against the external argparse engine, carrying the
switch names and the merged options bag. -/
structure ArgRegistration (V : Type) where
  names : List String
  options : List (String × ArgOpt V)
deriving Repr, DecidableEq

/-- Mirrors IParameterMetadata of the source; the parameter field holds the index of
the parameter object in the provider store, modelling the object reference. -/
structure IParameterMetadata (V : Type) where
  parameter : Nat
  required : Bool
  defaultValue : Option V
deriving Repr, DecidableEq

/-- Error data raised by the provider; each constructor carries the values the source
interpolates into the thrown message. -/
inductive CLError where
  | invalidDefinitionOptionsMissing : CLError
  | invalidDefinitionDefaultNotFound : String → List String → CLError
  | duplicateKey : String → String → CLError
  | missingRequired : List String → CLError
deriving Repr, DecidableEq

/-- State of a CommandLineParameterProvider instance: the parameter object store in
push order, the metadata map keyed by long name, the key registry mapping each key to
the long name that owns it, and the list of addArgument registrations, which models
the otherwise opaque argparse field of the source. -/
structure CommandLineParameterProvider (V : Type) where
  _parameters : List (CommandLineParameter V)
  _parameterMetadata : List (String × IParameterMetadata V)
  _keys : List (String × String)
  _argumentParserArgs : List (ArgRegistration V)
deriving Repr, DecidableEq

/-- A freshly constructed provider: every collection starts empty. -/
def emptyProvider : CommandLineParameterProvider V := ⟨[], [], [], []⟩

/-- Decimal representation of a natural number, modelling the JavaScript toString
call in the key generator. -/
def decimalRepr (n : Nat) : String :=
  if n = 0 then "0" else ((Nat.digits 10 n).reverse.map Nat.digitChar).asString

/-- The auto-generated key for a given value of the static key counter. -/
def autoKey (c : Nat) : String := "key_" ++ decimalRepr c

/-- Mirrors the private method of the source: when no key is supplied the default
argument mints an auto key from the static counter and bumps it; then the key
registry is consulted, and a truthy owner entry raises the duplicate-key error,
otherwise the key is recorded against the requesting long name. -/
def CommandLineParameterProvider._getKey (st : CommandLineParameterProvider V)
    (keyCounter : Nat) (parameterLongName : String) (key : Option String) :
    Except CLError String × CommandLineParameterProvider V × Nat :=
  let kc : String × Nat :=
    match key with
    | some k => (k, keyCounter)
    | none => (autoKey keyCounter, keyCounter + 1)
  match mapGet st._keys kc.1 with
  | some existingKey =>
    if existingKey ≠ "" then
      (Except.error (CLError.duplicateKey parameterLongName existingKey), st, kc.2)
    else
      (Except.ok kc.1, { st with _keys := mapSet st._keys kc.1 parameterLongName }, kc.2)
  | none =>
    (Except.ok kc.1, { st with _keys := mapSet st._keys kc.1 parameterLongName }, kc.2)

/-- Mirrors the private factory of the source: build the names list, obtain a key
(which may raise and abort everything that follows), construct the parameter object,
push it onto the store, merge the argparse options over the base options, record the
addArgument call, and write the metadata entry for the long name. The returned handle
is the index of the new parameter object in the store. -/
def CommandLineParameterProvider._createParameter (st : CommandLineParameterProvider V)
    (keyCounter : Nat) (definition : IBaseCommandLineDefinition V)
    (argparseOptions : List (String × ArgOpt V)) (key : Option String) :
    Except CLError Nat × CommandLineParameterProvider V × Nat :=
  let names : List String :=
    (match definition.parameterShortName with
     | some s => [s]
     | none => []) ++ [definition.parameterLongName]
  match st._getKey keyCounter definition.parameterLongName key with
  | (Except.error e, st1, c1) => (Except.error e, st1, c1)
  | (Except.ok k, st1, c1) =>
    let result : CommandLineParameter V := { _key := k, value := none }
    let idx := st1._parameters.length
    let st2 := { st1 with _parameters := st1._parameters ++ [result] }
    let baseArgparseOptions : List (String × ArgOpt V) :=
      [("help", ArgOpt.str definition.description), ("dest", ArgOpt.str k)]
    let merged := argparseOptions.foldl (fun acc kv => mapSet acc kv.1 kv.2) baseArgparseOptions
    let reg : ArgRegistration V := { names := names, options := merged }
    let st3 := { st2 with _argumentParserArgs := st2._argumentParserArgs ++ [reg] }
    let st4 := { st3 with
      _parameterMetadata := mapSet st3._parameterMetadata definition.parameterLongName
        ⟨idx, definition.required.getD false, definition.defaultValue⟩ }
    (Except.ok idx, st4, c1)

/-- Mirrors defineFlagParameter: a storeTrue action and no caller-supplied key. -/
def CommandLineParameterProvider.defineFlagParameter (st : CommandLineParameterProvider V)
    (keyCounter : Nat) (definition : IBaseCommandLineDefinition V) :
    Except CLError Nat × CommandLineParameterProvider V × Nat :=
  st._createParameter keyCounter definition [("action", ArgOpt.str "storeTrue")] none

/-- Mirrors defineStringParameter: no extra argparse options, and the key of the
definition is passed through. -/
def CommandLineParameterProvider.defineStringParameter (st : CommandLineParameterProvider V)
    (keyCounter : Nat) (definition : IBaseCommandLineDefinition V) :
    Except CLError Nat × CommandLineParameterProvider V × Nat :=
  st._createParameter keyCounter definition [] definition.key

/-- Mirrors defineStringListParameter: an append action, and the key of the
definition is passed through. -/
def CommandLineParameterProvider.defineStringListParameter (st : CommandLineParameterProvider V)
    (keyCounter : Nat) (definition : IBaseCommandLineDefinition V) :
    Except CLError Nat × CommandLineParameterProvider V × Nat :=
  st._createParameter keyCounter definition [("action", ArgOpt.str "append")] definition.key

/-- Mirrors defineIntegerParameter: an int type hint, and the key of the definition
is passed through. -/
def CommandLineParameterProvider.defineIntegerParameter (st : CommandLineParameterProvider V)
    (keyCounter : Nat) (definition : IBaseCommandLineDefinition V) :
    Except CLError Nat × CommandLineParameterProvider V × Nat :=
  st._createParameter keyCounter definition [("type", ArgOpt.str "int")] definition.key

/-- JavaScript truthiness of an optional string: an absent value and the empty string
are both falsy. -/
def jsTruthy : Option String → Bool
  | none => false
  | some s => s != ""

/-- Mirrors defineOptionParameter: a falsy options field raises the invalid-definition
error for a missing options array; a truthy defaultValue that indexOf cannot find in
the options raises the invalid-definition error for a default outside the options;
otherwise the parameter is created with choices and defaultValue argparse options and
no caller-supplied key. -/
def CommandLineParameterProvider.defineOptionParameter (st : CommandLineParameterProvider String)
    (keyCounter : Nat) (definition : ICommandLineOptionDefinition) :
    Except CLError Nat × CommandLineParameterProvider String × Nat :=
  match definition.options with
  | none => (Except.error CLError.invalidDefinitionOptionsMissing, st, keyCounter)
  | some opts =>
    if jsTruthy definition.defaultValue && !(opts.contains (definition.defaultValue.getD "")) then
      (Except.error (CLError.invalidDefinitionDefaultNotFound (definition.defaultValue.getD "") opts),
        st, keyCounter)
    else
      st._createParameter keyCounter definition.toIBaseCommandLineDefinition
        [("choices", ArgOpt.strList opts), ("defaultValue", ArgOpt.val definition.defaultValue)] none

/-- One step of the default-fill forEach of _processParsedData: when the referenced
parameter still has no value and the metadata entry carries a default, the parameter
receives the default through a setValue call on a singleton mapping for its key. -/
def defaultFillStep (params : List (CommandLineParameter V)) (md : IParameterMetadata V) :
    List (CommandLineParameter V) :=
  match params[md.parameter]? with
  | some p =>
    if p.value.isNone then
      match md.defaultValue with
      | some d => params.set md.parameter (p._setValue [(p._key, d)])
      | none => params
    else params
  | none => params

/-- The default-fill forEach of _processParsedData, iterating the metadata map in
insertion order. -/
def CommandLineParameterProvider.defaultFill (st : CommandLineParameterProvider V) :
    CommandLineParameterProvider V :=
  { st with
    _parameters := st._parameterMetadata.foldl (fun ps x => defaultFillStep ps x.2) st._parameters }

/-- Mirrors _processParsedData: first the value fill over every parameter of the
store, then the default fill over the metadata map. -/
def CommandLineParameterProvider._processParsedData (st : CommandLineParameterProvider V)
    (data : ICommandLineParserData V) : CommandLineParameterProvider V :=
  CommandLineParameterProvider.defaultFill
    { st with _parameters := st._parameters.map (fun p => p._setValue data) }

/-- The value of the parameter object referenced by a store index. -/
def CommandLineParameterProvider.paramValue (st : CommandLineParameterProvider V) (i : Nat) :
    Option V :=
  match st._parameters[i]? with
  | some p => p.value
  | none => none

/-- The long names collected by validateParameters: metadata entries, in insertion
order, whose parameter value is unset while the required flag holds. -/
def CommandLineParameterProvider.missingParameterLongNames
    (st : CommandLineParameterProvider V) : List String :=
  (st._parameterMetadata.filter
    (fun x => (st.paramValue x.2.parameter).isNone && x.2.required)).map (fun x => x.1)

/-- Mirrors validateParameters: a nonempty collection of missing long names raises the
missing-required error carrying all of them, otherwise the check passes. -/
def CommandLineParameterProvider.validateParameters (st : CommandLineParameterProvider V) :
    Except CLError Unit :=
  if st.missingParameterLongNames.length > 0 then
    Except.error (CLError.missingRequired st.missingParameterLongNames)
  else Except.ok ()

/-- A sequence of declarations on one provider in which no declaration supplies an
explicit key; a failure aborts the remainder of the sequence. -/
def CommandLineParameterProvider.declareAllAuto (st : CommandLineParameterProvider V)
    (keyCounter : Nat) :
    List (IBaseCommandLineDefinition V) →
      Except CLError Unit × CommandLineParameterProvider V × Nat
  | [] => (Except.ok (), st, keyCounter)
  | d :: rest =>
    match st._createParameter keyCounter d [] none with
    | (Except.ok _, st1, c1) => st1.declareAllAuto c1 rest
    | (Except.error e, st1, c1) => (Except.error e, st1, c1)

/-- Recognizer for the invalid-definition errors among the provider errors. -/
def CLError.isInvalidDefinition : CLError → Bool
  | CLError.invalidDefinitionOptionsMissing => true
  | CLError.invalidDefinitionDefaultNotFound _ _ => true
  | _ => false

/-- Recognizer lifted to results: did the call raise an invalid-definition error. -/
def raisesInvalidDefinition : Except CLError Nat → Bool
  | Except.error e => e.isInvalidDefinition
  | Except.ok _ => false

/-- The provider state produced by a successful _createParameter call, given the
state returned by the key registry and the granted key. -/
def createdState (st1 : CommandLineParameterProvider V) (d : IBaseCommandLineDefinition V)
    (opts : List (String × ArgOpt V)) (k : String) : CommandLineParameterProvider V :=
  { _parameters := st1._parameters ++ [{ _key := k, value := none }],
    _parameterMetadata := mapSet st1._parameterMetadata d.parameterLongName
      { parameter := st1._parameters.length, required := d.required.getD false,
        defaultValue := d.defaultValue },
    _keys := st1._keys,
    _argumentParserArgs := st1._argumentParserArgs ++
      [{ names := (match d.parameterShortName with | some s => [s] | none => []) ++
          [d.parameterLongName],
         options := opts.foldl (fun acc kv => mapSet acc kv.1 kv.2)
           [("help", ArgOpt.str d.description), ("dest", ArgOpt.str k)] }] }

/-- An option definition with an absent options field. -/
def optDefNoOptions : ICommandLineOptionDefinition := { parameterLongName := "level" }

/-- An option definition with a present-but-empty options list and no defaultValue. -/
def optDefEmptyOptions : ICommandLineOptionDefinition :=
  { parameterLongName := "level", options := some [] }

/-- A string definition with an empty long name and the explicit key k. -/
def strDefEmptyLongK : IBaseCommandLineDefinition String :=
  { parameterLongName := "", key := some "k" }

/-- A string definition with long name x and the explicit key k. -/
def strDefXK : IBaseCommandLineDefinition String :=
  { parameterLongName := "x", key := some "k" }

/-- A string definition with long name alpha and the explicit key k. -/
def strDefAK : IBaseCommandLineDefinition String :=
  { parameterLongName := "alpha", key := some "k" }

/-- A string definition with long name beta and the explicit key k. -/
def strDefBK : IBaseCommandLineDefinition String :=
  { parameterLongName := "beta", key := some "k" }


/-- A provider holding one declared parameter that is required and has no default. -/
def reqMissingState : CommandLineParameterProvider String :=
  (emptyProvider.defineStringParameter 5
    { parameterLongName := "name", required := some true }).2.1

/-- A provider with one parameter that already holds a value and a metadata entry
carrying a default for it. -/
def filledProvider : CommandLineParameterProvider String :=
  { _parameters := [{ _key := "key_0", value := some "v" }],
    _parameterMetadata :=
      [("name", { parameter := 0, required := false, defaultValue := some "d" })],
    _keys := [("key_0", "name")],
    _argumentParserArgs := [] }

/-- A string definition that is required and carries a default. -/
def strDefReqDef : IBaseCommandLineDefinition String :=
  { parameterLongName := "name", required := some true, defaultValue := some "dv" }

/-- A plain string definition with long name p and no explicit key. -/
def strDefPlainP : IBaseCommandLineDefinition String := { parameterLongName := "p" }

/-- A plain string definition with long name q and no explicit key. -/
def strDefPlainQ : IBaseCommandLineDefinition String := { parameterLongName := "q" }

/-- A string definition with long name dup, explicit key ka, required, with default. -/
def strDefDupA : IBaseCommandLineDefinition String :=
  { parameterLongName := "dup", key := some "ka", required := some true,
    defaultValue := some "a" }

/-- A string definition with long name dup, explicit key kb, not required, no
default. -/
def strDefDupB : IBaseCommandLineDefinition String :=
  { parameterLongName := "dup", key := some "kb" }


/-! Helper lemmas about the association-list model of JavaScript maps. -/

theorem mapGet_mapSet_self (m : List (String × α)) (k : String) (v : α) :
    mapGet (mapSet m k v) k = some v := by
  induction m with
  | nil => simp [mapGet, mapSet]
  | cons hd tl ih =>
    by_cases h : hd.1 = k
    · simp [mapGet, mapSet, h]
    · simp [mapGet, mapSet, h, ih]

theorem mapGet_mapSet_ne (m : List (String × α)) (k k1 : String) (v : α) (h : k1 ≠ k) :
    mapGet (mapSet m k v) k1 = mapGet m k1 := by
  have hk : ¬(k = k1) := fun e => h e.symm
  induction m with
  | nil => simp [mapGet, mapSet, hk]
  | cons hd tl ih =>
    obtain ⟨a, w⟩ := hd
    by_cases hh : a = k
    · subst hh
      simp [mapGet, mapSet, hk]
    · by_cases h2 : a = k1 <;> simp [mapGet, mapSet, hh, h2, h, ih]

theorem mapGet_eq_none_of_forall (m : List (String × α)) (k : String)
    (h : ∀ kv ∈ m, kv.1 ≠ k) : mapGet m k = none := by
  induction m with
  | nil => rfl
  | cons hd tl ih =>
    have hhd : hd.1 ≠ k := h hd (List.mem_cons_self hd tl)
    simp only [mapGet, hhd, if_false]
    exact ih (fun kv hkv => h kv (List.mem_cons_of_mem hd hkv))

theorem mapSet_eq_append_of_none (m : List (String × α)) (k : String) (v : α)
    (h : mapGet m k = none) : mapSet m k v = m ++ [(k, v)] := by
  induction m with
  | nil => rfl
  | cons hd tl ih =>
    by_cases hh : hd.1 = k
    · simp [mapGet, hh] at h
    · simp only [mapGet, hh, if_false] at h
      simp [mapSet, hh, ih h]

/-! Injectivity of the decimal key representation. -/

theorem digitChar_inj_lt : ∀ a < 10, ∀ b < 10, Nat.digitChar a = Nat.digitChar b → a = b := by
  decide

theorem map_digitChar_inj (l1 : List Nat) :
    ∀ l2 : List Nat, (∀ x ∈ l1, x < 10) → (∀ x ∈ l2, x < 10) →
      l1.map Nat.digitChar = l2.map Nat.digitChar → l1 = l2 := by
  induction l1 with
  | nil => intro l2 _ _ h; cases l2 <;> simp_all
  | cons a tl ih =>
    intro l2 h1 h2 h
    cases l2 with
    | nil => simp at h
    | cons b tl2 =>
      simp only [List.map_cons, List.cons.injEq] at h
      have ha : a < 10 := h1 a (List.mem_cons_self a tl)
      have hb : b < 10 := h2 b (List.mem_cons_self b tl2)
      have hab : a = b := digitChar_inj_lt a ha b hb h.1
      have htl : tl = tl2 :=
        ih tl2 (fun x hx => h1 x (List.mem_cons_of_mem a hx))
          (fun x hx => h2 x (List.mem_cons_of_mem b hx)) h.2
      rw [hab, htl]

theorem decimalRepr_data (n : Nat) (h : n ≠ 0) :
    (decimalRepr n).data = (Nat.digits 10 n).reverse.map Nat.digitChar := by
  simp [decimalRepr, h]
  rfl

theorem digits_singleton_zero (n : Nat) (h : Nat.digits 10 n = [0]) : n = 0 := by
  have h2 := Nat.ofDigits_digits 10 n
  rw [h] at h2
  simpa [Nat.ofDigits] using h2.symm

theorem decimalRepr_ne_zero (n : Nat) (h : n ≠ 0) : decimalRepr n ≠ decimalRepr 0 := by
  intro heq
  have hdata := congrArg String.data heq
  rw [decimalRepr_data n h] at hdata
  have h0 : (decimalRepr 0).data = ['0'] := rfl
  rw [h0] at hdata
  have hlen : (Nat.digits 10 n).length = 1 := by
    have := congrArg List.length hdata
    simpa using this
  obtain ⟨d, hd⟩ := List.length_eq_one.mp hlen
  rw [hd] at hdata
  simp at hdata
  have hd10 : d < 10 :=
    Nat.digits_lt_base (by norm_num) (by rw [hd]; exact List.mem_singleton_self d)
  have hd0 : d = 0 := digitChar_inj_lt d hd10 0 (by norm_num) (by rw [hdata]; rfl)
  exact h (digits_singleton_zero n (hd0 ▸ hd))

theorem decimalRepr_injective : Function.Injective decimalRepr := by
  intro a b h
  by_cases ha : a = 0 <;> by_cases hb : b = 0
  · rw [ha, hb]
  · exact absurd (ha ▸ h).symm (decimalRepr_ne_zero b hb)
  · exact absurd (hb ▸ h) (decimalRepr_ne_zero a ha)
  · have hdata : (decimalRepr a).data = (decimalRepr b).data := by rw [h]
    rw [decimalRepr_data a ha, decimalRepr_data b hb] at hdata
    have hrev : (Nat.digits 10 a).reverse = (Nat.digits 10 b).reverse :=
      map_digitChar_inj _ _
        (fun x hx => Nat.digits_lt_base (by norm_num) (List.mem_reverse.mp hx))
        (fun x hx => Nat.digits_lt_base (by norm_num) (List.mem_reverse.mp hx)) hdata
    exact Nat.digits_inj_iff.mp (List.reverse_injective hrev)

theorem autoKey_injective : Function.Injective autoKey := by
  intro a b h
  have hdata : (autoKey a).data = (autoKey b).data := by rw [h]
  simp only [autoKey, String.data_append] at hdata
  have := List.append_cancel_left hdata
  exact decimalRepr_injective (String.ext this)

/-! Equation lemmas for the key registry and the parameter factory. -/

theorem getKey_explicit_fresh (st : CommandLineParameterProvider V) (c : Nat) (ln k : String)
    (h : mapGet st._keys k = none) :
    st._getKey c ln (some k) =
      (Except.ok k, { st with _keys := mapSet st._keys k ln }, c) := by
  simp [CommandLineParameterProvider._getKey, h]

theorem getKey_explicit_dup (st : CommandLineParameterProvider V) (c : Nat) (ln k ln0 : String)
    (h : mapGet st._keys k = some ln0) (hne : ln0 ≠ "") :
    st._getKey c ln (some k) = (Except.error (CLError.duplicateKey ln ln0), st, c) := by
  simp [CommandLineParameterProvider._getKey, h, hne]

theorem getKey_explicit_empty (st : CommandLineParameterProvider V) (c : Nat) (ln k : String)
    (h : mapGet st._keys k = some "") :
    st._getKey c ln (some k) =
      (Except.ok k, { st with _keys := mapSet st._keys k ln }, c) := by
  simp [CommandLineParameterProvider._getKey, h]

theorem getKey_auto_fresh (st : CommandLineParameterProvider V) (c : Nat) (ln : String)
    (h : mapGet st._keys (autoKey c) = none) :
    st._getKey c ln none =
      (Except.ok (autoKey c), { st with _keys := mapSet st._keys (autoKey c) ln }, c + 1) := by
  simp [CommandLineParameterProvider._getKey, h]

theorem getKey_auto_dup (st : CommandLineParameterProvider V) (c : Nat) (ln ln0 : String)
    (h : mapGet st._keys (autoKey c) = some ln0) (hne : ln0 ≠ "") :
    st._getKey c ln none = (Except.error (CLError.duplicateKey ln ln0), st, c + 1) := by
  simp [CommandLineParameterProvider._getKey, h, hne]

theorem getKey_auto_empty (st : CommandLineParameterProvider V) (c : Nat) (ln : String)
    (h : mapGet st._keys (autoKey c) = some "") :
    st._getKey c ln none =
      (Except.ok (autoKey c), { st with _keys := mapSet st._keys (autoKey c) ln }, c + 1) := by
  simp [CommandLineParameterProvider._getKey, h]

theorem getKey_error_inv (st : CommandLineParameterProvider V) (c : Nat) (ln : String)
    (key : Option String) (e : CLError) (st1 : CommandLineParameterProvider V) (c1 : Nat)
    (h : st._getKey c ln key = (Except.error e, st1, c1)) :
    st1 = st ∧ ∃ ln0, e = CLError.duplicateKey ln ln0 := by
  cases key with
  | some k =>
    cases hm : mapGet st._keys k with
    | none =>
      rw [getKey_explicit_fresh st c ln k hm] at h
      simp at h
    | some ln0 =>
      by_cases h0 : ln0 = ""
      · subst h0
        rw [getKey_explicit_empty st c ln k hm] at h
        simp at h
      · rw [getKey_explicit_dup st c ln k ln0 hm h0] at h
        simp only [Prod.mk.injEq, Except.error.injEq] at h
        exact ⟨h.2.1.symm, ln0, h.1.symm⟩
  | none =>
    cases hm : mapGet st._keys (autoKey c) with
    | none =>
      rw [getKey_auto_fresh st c ln hm] at h
      simp at h
    | some ln0 =>
      by_cases h0 : ln0 = ""
      · subst h0
        rw [getKey_auto_empty st c ln hm] at h
        simp at h
      · rw [getKey_auto_dup st c ln ln0 hm h0] at h
        simp only [Prod.mk.injEq, Except.error.injEq] at h
        exact ⟨h.2.1.symm, ln0, h.1.symm⟩

theorem getKey_explicit_ok_inv (st : CommandLineParameterProvider V) (c : Nat) (ln k k2 : String)
    (st1 : CommandLineParameterProvider V) (c1 : Nat)
    (h : st._getKey c ln (some k) = (Except.ok k2, st1, c1)) :
    k2 = k ∧ c1 = c ∧ st1 = { st with _keys := mapSet st._keys k ln } := by
  cases hm : mapGet st._keys k with
  | none =>
    rw [getKey_explicit_fresh st c ln k hm] at h
    simp only [Prod.mk.injEq, Except.ok.injEq] at h
    exact ⟨h.1.symm, h.2.2.symm, h.2.1.symm⟩
  | some ln0 =>
    by_cases h0 : ln0 = ""
    · subst h0
      rw [getKey_explicit_empty st c ln k hm] at h
      simp only [Prod.mk.injEq, Except.ok.injEq] at h
      exact ⟨h.1.symm, h.2.2.symm, h.2.1.symm⟩
    · rw [getKey_explicit_dup st c ln k ln0 hm h0] at h
      simp at h

theorem createParameter_ok_eq (st st1 : CommandLineParameterProvider V) (c c1 : Nat)
    (d : IBaseCommandLineDefinition V) (opts : List (String × ArgOpt V))
    (key : Option String) (k : String)
    (hok : st._getKey c d.parameterLongName key = (Except.ok k, st1, c1)) :
    st._createParameter c d opts key =
      (Except.ok st1._parameters.length, createdState st1 d opts k, c1) := by
  unfold CommandLineParameterProvider._createParameter
  rw [hok]
  rfl

theorem createParameter_err_eq (st st1 : CommandLineParameterProvider V) (c c1 : Nat)
    (d : IBaseCommandLineDefinition V) (opts : List (String × ArgOpt V))
    (key : Option String) (e : CLError)
    (herr : st._getKey c d.parameterLongName key = (Except.error e, st1, c1)) :
    st._createParameter c d opts key = (Except.error e, st1, c1) := by
  unfold CommandLineParameterProvider._createParameter
  rw [herr]

theorem createParameter_error_inv (st : CommandLineParameterProvider V) (c : Nat)
    (d : IBaseCommandLineDefinition V) (opts : List (String × ArgOpt V))
    (key : Option String) (e : CLError) (st1 : CommandLineParameterProvider V) (c1 : Nat)
    (h : st._createParameter c d opts key = (Except.error e, st1, c1)) :
    st1 = st ∧ ∃ ln0, e = CLError.duplicateKey d.parameterLongName ln0 := by
  rcases hg : st._getKey c d.parameterLongName key with ⟨r, stg, cg⟩
  cases r with
  | ok k =>
    rw [createParameter_ok_eq st stg c cg d opts key k hg] at h
    simp at h
  | error e0 =>
    rw [createParameter_err_eq st stg c cg d opts key e0 hg] at h
    simp only [Prod.mk.injEq] at h
    obtain ⟨he, hst, _⟩ := h
    obtain ⟨hstg, ln0, he0⟩ := getKey_error_inv st c d.parameterLongName key e0 stg cg hg
    cases he
    exact ⟨hst ▸ hstg, ln0, he0⟩

theorem defineOptionParameter_options_none (st : CommandLineParameterProvider String)
    (c : Nat) (d : ICommandLineOptionDefinition) (h : d.options = none) :
    st.defineOptionParameter c d =
      (Except.error CLError.invalidDefinitionOptionsMissing, st, c) := by
  unfold CommandLineParameterProvider.defineOptionParameter
  rw [h]

theorem defineOptionParameter_options_some (st : CommandLineParameterProvider String)
    (c : Nat) (d : ICommandLineOptionDefinition) (opts2 : List String)
    (h : d.options = some opts2) :
    st.defineOptionParameter c d =
      if (jsTruthy d.defaultValue && !(opts2.contains (d.defaultValue.getD ""))) = true then
        (Except.error
          (CLError.invalidDefinitionDefaultNotFound (d.defaultValue.getD "") opts2), st, c)
      else
        st._createParameter c d.toIBaseCommandLineDefinition
          [("choices", ArgOpt.strList opts2), ("defaultValue", ArgOpt.val d.defaultValue)]
          none := by
  unfold CommandLineParameterProvider.defineOptionParameter
  rw [h]

theorem createParameter_not_invalid (st : CommandLineParameterProvider V) (c : Nat)
    (d : IBaseCommandLineDefinition V) (opts : List (String × ArgOpt V)) (key : Option String) :
    raisesInvalidDefinition (st._createParameter c d opts key).1 = false := by
  rcases h : st._createParameter c d opts key with ⟨r, st1, c1⟩
  cases r with
  | ok i => rfl
  | error e =>
    obtain ⟨_, ln0, he⟩ := createParameter_error_inv st c d opts key e st1 c1 h
    subst he
    rfl

/-- C1 (amended): defineOptionParameter raises an invalid-definition error exactly when
the options field is absent, or when the supplied defaultValue is a non-empty string
that is not a member of the options list. In particular a present-but-empty options
list with no defaultValue raises nothing, and an empty-string defaultValue outside the
options raises nothing, because both checks of the source go through JavaScript
truthiness. -/
theorem C1_defineOptionParameter_invalid_iff (st : CommandLineParameterProvider String)
    (c : Nat) (d : ICommandLineOptionDefinition) :
    raisesInvalidDefinition (st.defineOptionParameter c d).1 = true ↔
      (d.options = none ∨
        ∃ dv, d.defaultValue = some dv ∧ dv ≠ "" ∧ dv ∉ d.options.getD []) := by
  rcases hopt : d.options with _ | opts
  · simp [CommandLineParameterProvider.defineOptionParameter, hopt,
      raisesInvalidDefinition, CLError.isInvalidDefinition]
  · rcases hdv : d.defaultValue with _ | dv
    · simp only [CommandLineParameterProvider.defineOptionParameter, hopt, hdv, jsTruthy,
        Bool.false_and, Bool.false_eq_true, if_false, createParameter_not_invalid]
      simp
    · by_cases hdve : dv = ""
      · subst hdve
        simp only [CommandLineParameterProvider.defineOptionParameter, hopt, hdv, jsTruthy,
          bne_self_eq_false, Bool.false_and, Bool.false_eq_true, if_false,
          createParameter_not_invalid]
        simp
      · by_cases hmem : dv ∈ opts
        · have hcontains : opts.contains ((some dv).getD "") = true := by
            simp [hmem]
          simp only [CommandLineParameterProvider.defineOptionParameter, hopt, hdv]
          rw [hcontains]
          simp only [Bool.not_true, Bool.and_false, Bool.false_eq_true, if_false,
            createParameter_not_invalid]
          simp [hmem, hdve]
        · have hcontains : opts.contains ((some dv).getD "") = false := by
            simp [hmem]
          have htruthy : jsTruthy (some dv) = true := by
            simp [jsTruthy]
            exact hdve
          simp only [CommandLineParameterProvider.defineOptionParameter, hopt, hdv]
          rw [hcontains, htruthy]
          simp only [Bool.not_false, Bool.and_true, if_true]
          simp [raisesInvalidDefinition, CLError.isInvalidDefinition, hdve, hmem]

/-- C1 counterexample: a definition whose options list is present but empty and whose
defaultValue is absent raises no error at all, although the claim requires an
invalid-definition failure for an empty options set. -/
theorem C1_counterexample :
    optDefEmptyOptions.options = some [] ∧ optDefEmptyOptions.defaultValue = none ∧
    (emptyProvider.defineOptionParameter 0 optDefEmptyOptions).1 = Except.ok 0 := by
  exact ⟨rfl, rfl, rfl⟩

/-- C1 witness: the amended characterization applied to a definition with an absent
options field. -/
theorem C1_witness :
    raisesInvalidDefinition (emptyProvider.defineOptionParameter 0 optDefNoOptions).1 = true :=
  (C1_defineOptionParameter_invalid_iff emptyProvider 0 optDefNoOptions).mpr (Or.inl rfl)

theorem createParameter_ok_inv_explicit (st : CommandLineParameterProvider V) (c : Nat)
    (d : IBaseCommandLineDefinition V) (opts : List (String × ArgOpt V)) (k : String)
    (i : Nat) (stf : CommandLineParameterProvider V) (cf : Nat)
    (h : st._createParameter c d opts (some k) = (Except.ok i, stf, cf)) :
    stf._keys = mapSet st._keys k d.parameterLongName ∧ cf = c := by
  rcases hg : st._getKey c d.parameterLongName (some k) with ⟨r, stg, cg⟩
  cases r with
  | error e =>
    rw [createParameter_err_eq st stg c cg d opts (some k) e hg] at h
    simp at h
  | ok k2 =>
    rw [createParameter_ok_eq st stg c cg d opts (some k) k2 hg] at h
    obtain ⟨hk2, hcg, hstg⟩ := getKey_explicit_ok_inv st c d.parameterLongName k k2 stg cg hg
    simp only [Prod.mk.injEq] at h
    constructor
    · rw [← h.2.1]
      show stg._keys = mapSet st._keys k d.parameterLongName
      rw [hstg]
    · rw [← h.2.2, hcg]

/-- C2 (amended): two declarations on one provider with the same explicit key and
different, non-empty long names: once the first has succeeded, the second always fails
with a duplicate-key error naming the requesting long name and the original owner.
The order of the two declarations is immaterial because both are quantified. The
non-empty requirement is forced by the truthiness check of the source on the
registered owner. -/
theorem C2_duplicate_explicit_key (st : CommandLineParameterProvider V) (c : Nat)
    (d1 d2 : IBaseCommandLineDefinition V) (k : String)
    (h1 : d1.parameterLongName ≠ "") (h2 : d2.parameterLongName ≠ "")
    (hne : d1.parameterLongName ≠ d2.parameterLongName)
    (hk1 : d1.key = some k) (hk2 : d2.key = some k) :
    ∀ i st1 c1, st.defineStringParameter c d1 = (Except.ok i, st1, c1) →
      (st1.defineStringParameter c1 d2).1 =
        Except.error (CLError.duplicateKey d2.parameterLongName d1.parameterLongName) := by
  intro i st1 c1 h
  unfold CommandLineParameterProvider.defineStringParameter at h ⊢
  rw [hk1] at h
  rw [hk2]
  obtain ⟨hkeys, _⟩ := createParameter_ok_inv_explicit st c d1 [] k i st1 c1 h
  have hget : mapGet st1._keys k = some d1.parameterLongName := by
    rw [hkeys]
    exact mapGet_mapSet_self _ _ _
  rw [createParameter_err_eq st1 st1 c1 c1 d2 [] (some k) _
    (getKey_explicit_dup st1 c1 d2.parameterLongName k d1.parameterLongName hget h1)]

/-- C2 counterexample: when the first declaration carries the empty string as its long
name, the registered owner is falsy, the collision check is skipped, and the second
declaration with the same explicit key and a different long name succeeds instead of
failing. -/
theorem C2_counterexample :
    strDefEmptyLongK.parameterLongName ≠ strDefXK.parameterLongName ∧
    (emptyProvider.defineStringParameter 0 strDefEmptyLongK).1 = Except.ok 0 ∧
    ((emptyProvider.defineStringParameter 0 strDefEmptyLongK).2.1.defineStringParameter
      (emptyProvider.defineStringParameter 0 strDefEmptyLongK).2.2 strDefXK).1 =
      Except.ok 1 := by
  exact ⟨by decide, rfl, rfl⟩

/-- C2 witness: the amended statement applied to two concrete declarations with
non-empty long names sharing the explicit key k. -/
theorem C2_witness :
    ((emptyProvider.defineStringParameter 0 strDefAK).2.1.defineStringParameter
      (emptyProvider.defineStringParameter 0 strDefAK).2.2 strDefBK).1 =
      Except.error (CLError.duplicateKey "beta" "alpha") :=
  C2_duplicate_explicit_key emptyProvider 0 strDefAK strDefBK "k"
    (by decide) (by decide) (by decide) rfl rfl 0
    (emptyProvider.defineStringParameter 0 strDefAK).2.1
    (emptyProvider.defineStringParameter 0 strDefAK).2.2 rfl

/-- C7: a declaration that fails, whether with an invalid-definition error raised by
the option-definition validation or with a duplicate-key error raised by the key
registry, returns the provider state exactly as it was: the parameters store, the
metadata map, the key registry, and the recorded tokenizer registrations are all
unchanged, so there is no partial registration. -/
theorem C7_failed_declaration_preserves_state (st : CommandLineParameterProvider V) (c : Nat)
    (d : IBaseCommandLineDefinition V) (opts : List (String × ArgOpt V)) (key : Option String)
    (stS : CommandLineParameterProvider String) (cS : Nat)
    (dOpt : ICommandLineOptionDefinition) :
    (∀ e st1 c1, st._createParameter c d opts key = (Except.error e, st1, c1) → st1 = st) ∧
    (∀ e st1 c1, stS.defineOptionParameter cS dOpt = (Except.error e, st1, c1) → st1 = stS) := by
  constructor
  · intro e st1 c1 h
    exact (createParameter_error_inv st c d opts key e st1 c1 h).1
  · intro e st1 c1 h
    rcases hopt : dOpt.options with _ | opts2
    · rw [defineOptionParameter_options_none stS cS dOpt hopt] at h
      simp only [Prod.mk.injEq] at h
      exact h.2.1.symm
    · rw [defineOptionParameter_options_some stS cS dOpt opts2 hopt] at h
      by_cases hcond :
          (jsTruthy dOpt.defaultValue && !(opts2.contains (dOpt.defaultValue.getD ""))) = true
      · rw [if_pos hcond] at h
        simp only [Prod.mk.injEq] at h
        exact h.2.1.symm
      · rw [if_neg hcond] at h
        exact (createParameter_error_inv stS cS dOpt.toIBaseCommandLineDefinition _ none
          e st1 c1 h).1

/-- C7 witness: the invalid-definition branch applied to a concrete failing option
declaration on a fresh provider leaves the provider empty. -/
theorem C7_witness :
    (emptyProvider.defineOptionParameter 0 optDefNoOptions).2.1 = emptyProvider :=
  (C7_failed_declaration_preserves_state (V := String) emptyProvider 0
      { parameterLongName := "x" } [] none emptyProvider 0 optDefNoOptions).2
    CLError.invalidDefinitionOptionsMissing
    (emptyProvider.defineOptionParameter 0 optDefNoOptions).2.1
    (emptyProvider.defineOptionParameter 0 optDefNoOptions).2.2 rfl

/-- C8 (amended): a declaration supplying an explicit key that is already registered to
an owner with a truthy (non-empty) long name always fails, even when that owner holds
the same long name as the requesting declaration: the collision check never compares
owners, it only tests the registered owner for truthiness. -/
theorem C8_registered_key_always_fails (st : CommandLineParameterProvider V) (c : Nat)
    (d : IBaseCommandLineDefinition V) (opts : List (String × ArgOpt V)) (k ln0 : String)
    (hreg : mapGet st._keys k = some ln0) (hln0 : ln0 ≠ "") :
    st._createParameter c d opts (some k) =
      (Except.error (CLError.duplicateKey d.parameterLongName ln0), st, c) :=
  createParameter_err_eq st st c c d opts (some k) _
    (getKey_explicit_dup st c d.parameterLongName k ln0 hreg hln0)

/-- C8 counterexample: the key k is registered, but to the falsy empty long name, and
a second declaration supplying the same explicit key succeeds instead of failing. -/
theorem C8_counterexample :
    mapGet (emptyProvider.defineStringParameter 0 strDefEmptyLongK).2.1._keys "k" =
      some "" ∧
    ((emptyProvider.defineStringParameter 0 strDefEmptyLongK).2.1.defineStringParameter
      (emptyProvider.defineStringParameter 0 strDefEmptyLongK).2.2 strDefEmptyLongK).1 =
      Except.ok 1 := by
  exact ⟨rfl, rfl⟩

/-- C8 witness: the amended statement applied with an owner whose long name equals the
requesting long name, showing that sameness of the long names does not bypass the
failure. -/
theorem C8_witness :
    (emptyProvider.defineStringParameter 0 strDefAK).2.1._createParameter 0 strDefAK []
      (some "k") =
      (Except.error (CLError.duplicateKey "alpha" "alpha"),
        (emptyProvider.defineStringParameter 0 strDefAK).2.1, 0) :=
  C8_registered_key_always_fails (emptyProvider.defineStringParameter 0 strDefAK).2.1 0
    strDefAK [] "k" "alpha" rfl (by decide)

theorem missingParameterLongNames_mem (st : CommandLineParameterProvider V) (ln : String) :
    ln ∈ st.missingParameterLongNames ↔
      ∃ md, (ln, md) ∈ st._parameterMetadata ∧ md.required = true ∧
        st.paramValue md.parameter = none := by
  unfold CommandLineParameterProvider.missingParameterLongNames
  simp only [List.mem_map, List.mem_filter]
  constructor
  · rintro ⟨⟨ln2, md⟩, ⟨hmem2, hp⟩, rfl⟩
    simp only [Bool.and_eq_true, Option.isNone_iff_eq_none] at hp
    exact ⟨md, hmem2, hp.2, hp.1⟩
  · rintro ⟨md, hmemb, hreq, hval⟩
    refine ⟨(ln, md), ⟨hmemb, ?_⟩, rfl⟩
    simp only [Bool.and_eq_true, Option.isNone_iff_eq_none]
    exact ⟨hval, hreq⟩

theorem missingParameterLongNames_nil (st : CommandLineParameterProvider V) :
    st.missingParameterLongNames = [] ↔
      ∀ x ∈ st._parameterMetadata, x.2.required = true →
        st.paramValue x.2.parameter ≠ none := by
  rw [List.eq_nil_iff_forall_not_mem]
  constructor
  · intro hno x hx hreq hvalnone
    exact hno x.1 ((missingParameterLongNames_mem st x.1).mpr ⟨x.2, hx, hreq, hvalnone⟩)
  · intro hall ln hln
    obtain ⟨md, hmemb, hreq, hval⟩ := (missingParameterLongNames_mem st ln).mp hln
    exact hall (ln, md) hmemb hreq hval

/-- C3: after the fill passes, validateParameters succeeds exactly when no metadata
entry combines a true required flag with a still-unset parameter value; the only error
it can raise is the missing-required error, and the list that error carries holds
precisely the long names of every offending entry, not only the first. -/
theorem C3_validateParameters_spec (st : CommandLineParameterProvider V) :
    (st.validateParameters = Except.ok () ↔
      ∀ x ∈ st._parameterMetadata, x.2.required = true →
        st.paramValue x.2.parameter ≠ none) ∧
    (∀ e, st.validateParameters = Except.error e →
      e = CLError.missingRequired st.missingParameterLongNames) ∧
    (∀ ln, ln ∈ st.missingParameterLongNames ↔
      ∃ md, (ln, md) ∈ st._parameterMetadata ∧ md.required = true ∧
        st.paramValue md.parameter = none) := by
  refine ⟨?_, ?_, fun ln => missingParameterLongNames_mem st ln⟩
  · unfold CommandLineParameterProvider.validateParameters
    by_cases hlen : st.missingParameterLongNames.length > 0
    · rw [if_pos hlen]
      constructor
      · intro h
        exact absurd h (by simp)
      · intro hall
        have hnil := (missingParameterLongNames_nil st).mpr hall
        rw [hnil] at hlen
        simp at hlen
    · rw [if_neg hlen]
      have hnil : st.missingParameterLongNames = [] := by
        cases hml : st.missingParameterLongNames with
        | nil => rfl
        | cons a l =>
          rw [hml] at hlen
          simp at hlen
      constructor
      · intro _
        exact (missingParameterLongNames_nil st).mp hnil
      · intro _
        rfl
  · intro e he
    unfold CommandLineParameterProvider.validateParameters at he
    by_cases hlen : st.missingParameterLongNames.length > 0
    · rw [if_pos hlen] at he
      simp only [Except.error.injEq] at he
      exact he.symm
    · rw [if_neg hlen] at he
      simp at he

/-- C3 witness: the error-shape part of the characterization applied to a provider
whose single required parameter is still unset. -/
theorem C3_witness :
    CLError.missingRequired ["name"] =
      CLError.missingRequired reqMissingState.missingParameterLongNames :=
  (C3_validateParameters_spec reqMissingState).2.1 (CLError.missingRequired ["name"]) rfl

theorem setValue_singleton_value (p : CommandLineParameter V) (dv : V) :
    (p._setValue [(p._key, dv)]).value = some dv := by
  simp [CommandLineParameter._setValue, mapGet]

theorem defaultFillStep_eq_none (ps : List (CommandLineParameter V)) (md : IParameterMetadata V)
    (h : ps[md.parameter]? = none) : defaultFillStep ps md = ps := by
  unfold defaultFillStep
  rw [h]

theorem defaultFillStep_eq_notNone (ps : List (CommandLineParameter V))
    (md : IParameterMetadata V) (p : CommandLineParameter V)
    (h : ps[md.parameter]? = some p) (hv : p.value.isNone = false) :
    defaultFillStep ps md = ps := by
  unfold defaultFillStep
  rw [h]
  simp [hv]

theorem defaultFillStep_eq_noDefault (ps : List (CommandLineParameter V))
    (md : IParameterMetadata V) (p : CommandLineParameter V)
    (h : ps[md.parameter]? = some p) (hd : md.defaultValue = none) :
    defaultFillStep ps md = ps := by
  unfold defaultFillStep
  rw [h, hd]
  simp

theorem defaultFillStep_eq_set (ps : List (CommandLineParameter V))
    (md : IParameterMetadata V) (p : CommandLineParameter V) (dv : V)
    (h : ps[md.parameter]? = some p) (hv : p.value.isNone = true)
    (hd : md.defaultValue = some dv) :
    defaultFillStep ps md = ps.set md.parameter (p._setValue [(p._key, dv)]) := by
  unfold defaultFillStep
  rw [h, hd]
  simp [hv]

theorem defaultFillStep_preserve (ps : List (CommandLineParameter V))
    (md : IParameterMetadata V) (i : Nat) (p : CommandLineParameter V)
    (hp : ps[i]? = some p) (hv : p.value ≠ none) :
    (defaultFillStep ps md)[i]? = some p := by
  cases hq : ps[md.parameter]? with
  | none => rw [defaultFillStep_eq_none ps md hq]; exact hp
  | some q =>
    cases hqv : q.value.isNone with
    | false => rw [defaultFillStep_eq_notNone ps md q hq hqv]; exact hp
    | true =>
      cases hd : md.defaultValue with
      | none => rw [defaultFillStep_eq_noDefault ps md q hq hd]; exact hp
      | some dv =>
        rw [defaultFillStep_eq_set ps md q dv hq hqv hd]
        by_cases hij : md.parameter = i
        · subst hij
          rw [hq] at hp
          cases hp
          exact absurd (Option.isNone_iff_eq_none.mp hqv) hv
        · rw [List.getElem?_set_ne hij]
          exact hp

theorem defaultFill_fold_preserve (mds : List (String × IParameterMetadata V)) :
    ∀ (ps : List (CommandLineParameter V)) (i : Nat) (p : CommandLineParameter V),
      ps[i]? = some p → p.value ≠ none →
      (mds.foldl (fun ps x => defaultFillStep ps x.2) ps)[i]? = some p := by
  induction mds with
  | nil => intro ps i p hp _; simpa using hp
  | cons hd tl ih =>
    intro ps i p hp hv
    exact ih (defaultFillStep ps hd.2) i p (defaultFillStep_preserve ps hd.2 i p hp hv) hv

theorem defaultFillStep_preserve_notNone (ps : List (CommandLineParameter V))
    (md : IParameterMetadata V) (i : Nat)
    (h : ∀ p, ps[i]? = some p → p.value ≠ none) :
    ∀ p, (defaultFillStep ps md)[i]? = some p → p.value ≠ none := by
  intro p hp
  cases hq : ps[md.parameter]? with
  | none => rw [defaultFillStep_eq_none ps md hq] at hp; exact h p hp
  | some q =>
    cases hqv : q.value.isNone with
    | false => rw [defaultFillStep_eq_notNone ps md q hq hqv] at hp; exact h p hp
    | true =>
      cases hd : md.defaultValue with
      | none => rw [defaultFillStep_eq_noDefault ps md q hq hd] at hp; exact h p hp
      | some dv =>
        rw [defaultFillStep_eq_set ps md q dv hq hqv hd] at hp
        by_cases hij : md.parameter = i
        · subst hij
          rw [List.getElem?_set_self'] at hp
          rw [hq] at hp
          simp only [Option.map_eq_map, Option.map_some', Function.const_apply] at hp
          cases hp
          rw [setValue_singleton_value]
          simp
        · rw [List.getElem?_set_ne hij] at hp
          exact h p hp

theorem defaultFillStep_filled (ps : List (CommandLineParameter V)) (md : IParameterMetadata V)
    (hd : md.defaultValue.isSome = true) :
    ∀ p, (defaultFillStep ps md)[md.parameter]? = some p → p.value ≠ none := by
  intro p hp
  cases hq : ps[md.parameter]? with
  | none =>
    rw [defaultFillStep_eq_none ps md hq] at hp
    rw [hq] at hp
    exact absurd hp (by simp)
  | some q =>
    cases hqv : q.value.isNone with
    | false =>
      rw [defaultFillStep_eq_notNone ps md q hq hqv] at hp
      rw [hq] at hp
      cases hp
      intro hnone
      rw [hnone] at hqv
      simp at hqv
    | true =>
      obtain ⟨dv, hdv⟩ := Option.isSome_iff_exists.mp hd
      rw [defaultFillStep_eq_set ps md q dv hq hqv hdv] at hp
      rw [List.getElem?_set_self'] at hp
      rw [hq] at hp
      simp only [Option.map_eq_map, Option.map_some', Function.const_apply] at hp
      cases hp
      rw [setValue_singleton_value]
      simp

theorem defaultFill_fold_preserve_notNone (mds : List (String × IParameterMetadata V)) :
    ∀ (ps : List (CommandLineParameter V)) (i : Nat),
      (∀ p, ps[i]? = some p → p.value ≠ none) →
      ∀ p, (mds.foldl (fun ps x => defaultFillStep ps x.2) ps)[i]? = some p →
        p.value ≠ none := by
  induction mds with
  | nil => intro ps i h p hp; exact h p hp
  | cons hd tl ih =>
    intro ps i h p hp
    exact ih (defaultFillStep ps hd.2) i (defaultFillStep_preserve_notNone ps hd.2 i h) p hp

theorem defaultFill_fold_filled (mds : List (String × IParameterMetadata V)) :
    ∀ (ps : List (CommandLineParameter V)) (x : String × IParameterMetadata V),
      x ∈ mds → x.2.defaultValue.isSome = true →
      ∀ p, (mds.foldl (fun ps x => defaultFillStep ps x.2) ps)[x.2.parameter]? = some p →
        p.value ≠ none := by
  induction mds with
  | nil => intro ps x hx; simp at hx
  | cons hd tl ih =>
    intro ps x hx hdef p hp
    rcases List.mem_cons.mp hx with hh | hx2
    · subst hh
      exact defaultFill_fold_preserve_notNone tl (defaultFillStep ps x.2) x.2.parameter
        (defaultFillStep_filled ps x.2 hdef) p hp
    · exact ih (defaultFillStep ps hd.2) x hx2 hdef p hp

theorem defaultFillStep_noop (ps : List (CommandLineParameter V)) (md : IParameterMetadata V)
    (h : ∀ p, ps[md.parameter]? = some p → md.defaultValue.isSome = true → p.value ≠ none) :
    defaultFillStep ps md = ps := by
  cases hq : ps[md.parameter]? with
  | none => exact defaultFillStep_eq_none ps md hq
  | some q =>
    cases hqv : q.value.isNone with
    | false => exact defaultFillStep_eq_notNone ps md q hq hqv
    | true =>
      cases hd : md.defaultValue with
      | none => exact defaultFillStep_eq_noDefault ps md q hq hd
      | some dv =>
        exfalso
        exact h q hq (by simp [hd]) (Option.isNone_iff_eq_none.mp hqv)

theorem defaultFill_fold_noop (mds : List (String × IParameterMetadata V))
    (ps : List (CommandLineParameter V))
    (h : ∀ x ∈ mds, defaultFillStep ps x.2 = ps) :
    mds.foldl (fun ps x => defaultFillStep ps x.2) ps = ps := by
  induction mds with
  | nil => rfl
  | cons hd tl ih =>
    simp only [List.foldl_cons]
    rw [h hd (List.mem_cons_self hd tl)]
    exact ih (fun x hx => h x (List.mem_cons_of_mem hd hx))

theorem defaultFill_fold_idem (mds : List (String × IParameterMetadata V))
    (ps : List (CommandLineParameter V)) :
    mds.foldl (fun ps x => defaultFillStep ps x.2)
      (mds.foldl (fun ps x => defaultFillStep ps x.2) ps) =
    mds.foldl (fun ps x => defaultFillStep ps x.2) ps := by
  apply defaultFill_fold_noop
  intro x hx
  apply defaultFillStep_noop
  intro p hp hdef
  exact defaultFill_fold_filled mds ps x hx hdef p hp

theorem defaultFill_idem (st : CommandLineParameterProvider V) :
    st.defaultFill.defaultFill = st.defaultFill := by
  obtain ⟨a, b, c, d⟩ := st
  show (⟨List.foldl (fun ps x => defaultFillStep ps x.2)
      (List.foldl (fun ps x => defaultFillStep ps x.2) a b) b, b, c, d⟩ :
      CommandLineParameterProvider V) =
    ⟨List.foldl (fun ps x => defaultFillStep ps x.2) a b, b, c, d⟩
  rw [defaultFill_fold_idem]

/-- C4: the default fill writes only parameters whose value is still unset: any store
entry already holding a value survives the pass entirely unchanged, and running the
pass twice yields the same provider as running it once. -/
theorem C4_defaultFill_spec (st : CommandLineParameterProvider V) :
    (∀ (i : Nat) (p : CommandLineParameter V), st._parameters[i]? = some p →
      p.value ≠ none → st.defaultFill._parameters[i]? = some p) ∧
    st.defaultFill.defaultFill = st.defaultFill := by
  constructor
  · intro i p hp hv
    exact defaultFill_fold_preserve st._parameterMetadata st._parameters i p hp hv
  · exact defaultFill_idem st

/-- C4 witness: the already-set parameter of a concrete provider survives a default
fill unchanged although a default is on file for it. -/
theorem C4_witness :
    filledProvider.defaultFill._parameters[0]? =
      some { _key := "key_0", value := some "v" } :=
  (C4_defaultFill_spec filledProvider).1 0 { _key := "key_0", value := some "v" } rfl
    (by simp)

theorem defineString_empty_state (d : IBaseCommandLineDefinition String) (c : Nat)
    (dv : String) (hreq : d.required = some true) (hdv : d.defaultValue = some dv) :
    (emptyProvider.defineStringParameter c d).2.1 =
      { _parameters := [{ _key := d.key.getD (autoKey c), value := none }],
        _parameterMetadata := [(d.parameterLongName,
          { parameter := 0, required := true, defaultValue := some dv })],
        _keys := [(d.key.getD (autoKey c), d.parameterLongName)],
        _argumentParserArgs := [{
          names := (match d.parameterShortName with | some s => [s] | none => []) ++
            [d.parameterLongName],
          options := [("help", ArgOpt.str d.description),
            ("dest", ArgOpt.str (d.key.getD (autoKey c)))] }] } := by
  cases hk : d.key with
  | none =>
    unfold CommandLineParameterProvider.defineStringParameter
    rw [hk, createParameter_ok_eq emptyProvider _ c (c + 1) d [] none (autoKey c)
      (getKey_auto_fresh emptyProvider c d.parameterLongName rfl)]
    simp [createdState, emptyProvider, mapSet, hreq, hdv, hk]
  | some k =>
    unfold CommandLineParameterProvider.defineStringParameter
    rw [hk, createParameter_ok_eq emptyProvider _ c c d [] (some k) k
      (getKey_explicit_fresh emptyProvider c d.parameterLongName k rfl)]
    simp [createdState, emptyProvider, mapSet, hreq, hdv, hk]

/-- C5: a parameter declared with a true required flag and a defined defaultValue, on
a provider consisting of that declaration, resolves successfully when the raw parsed
mapping carries no value for its key: the value fill leaves it unset, the default fill
assigns the default, and validateParameters raises nothing, so the final value is the
default and the required flag can never fire for such a parameter. -/
theorem C5_required_with_default_resolves (d : IBaseCommandLineDefinition String) (c : Nat)
    (data : ICommandLineParserData String) (dv : String)
    (hreq : d.required = some true) (hdv : d.defaultValue = some dv)
    (hdata : mapGet data (d.key.getD (autoKey c)) = none) :
    ((emptyProvider.defineStringParameter c d).2.1._processParsedData data).validateParameters =
      Except.ok () ∧
    ((emptyProvider.defineStringParameter c d).2.1._processParsedData data)._parameters =
      [{ _key := d.key.getD (autoKey c), value := some dv }] := by
  rw [defineString_empty_state d c dv hreq hdv]
  constructor <;>
    simp [CommandLineParameterProvider._processParsedData,
      CommandLineParameterProvider.defaultFill, defaultFillStep,
      CommandLineParameter._setValue, CommandLineParameterProvider.validateParameters,
      CommandLineParameterProvider.missingParameterLongNames,
      CommandLineParameterProvider.paramValue, mapGet, hdata]

/-- C5 witness: the concrete required-with-default declaration resolved against an
empty raw mapping. -/
theorem C5_witness :
    ((emptyProvider.defineStringParameter 5 strDefReqDef).2.1._processParsedData
      []).validateParameters = Except.ok () ∧
    ((emptyProvider.defineStringParameter 5 strDefReqDef).2.1._processParsedData
      [])._parameters =
      [{ _key := strDefReqDef.key.getD (autoKey 5), value := some "dv" }] :=
  C5_required_with_default_resolves strDefReqDef 5 [] "dv" rfl rfl rfl

theorem declareAllAuto_spec (defs : List (IBaseCommandLineDefinition V)) :
    ∀ (st : CommandLineParameterProvider V) (c : Nat),
      (∀ kv ∈ st._keys, ∃ j, j < c ∧ kv.1 = autoKey j) →
      (st.declareAllAuto c defs).1 = Except.ok () ∧
      (st.declareAllAuto c defs).2.2 = c + defs.length ∧
      (st.declareAllAuto c defs).2.1._parameters =
        st._parameters ++ (List.range defs.length).map
          (fun i => { _key := autoKey (c + i), value := none }) ∧
      (∀ kv ∈ (st.declareAllAuto c defs).2.1._keys,
        ∃ j, j < c + defs.length ∧ kv.1 = autoKey j) := by
  induction defs with
  | nil =>
    intro st c hinv
    refine ⟨rfl, rfl, by simp [CommandLineParameterProvider.declareAllAuto], ?_⟩
    intro kv hkv
    obtain ⟨j, hj, he⟩ := hinv kv hkv
    exact ⟨j, by simpa using hj, he⟩
  | cons d rest ih =>
    intro st c hinv
    have hfresh : mapGet st._keys (autoKey c) = none := by
      apply mapGet_eq_none_of_forall
      intro kv hkv
      obtain ⟨j, hj, he⟩ := hinv kv hkv
      rw [he]
      intro hcontra
      exact absurd (autoKey_injective hcontra) (by omega)
    have hgk := getKey_auto_fresh st c d.parameterLongName hfresh
    have hcp := createParameter_ok_eq st _ c (c + 1) d [] none (autoKey c) hgk
    have hstep : st.declareAllAuto c (d :: rest) =
        (createdState { st with _keys := mapSet st._keys (autoKey c) d.parameterLongName }
          d [] (autoKey c)).declareAllAuto (c + 1) rest := by
      simp only [CommandLineParameterProvider.declareAllAuto, hcp]
    set st1 := createdState { st with _keys := mapSet st._keys (autoKey c) d.parameterLongName }
      d [] (autoKey c) with hst1
    have hk1 : st1._keys = mapSet st._keys (autoKey c) d.parameterLongName := rfl
    have hp1 : st1._parameters = st._parameters ++ [{ _key := autoKey c, value := none }] := rfl
    have hinv1 : ∀ kv ∈ st1._keys, ∃ j, j < c + 1 ∧ kv.1 = autoKey j := by
      intro kv hkv
      rw [hk1, mapSet_eq_append_of_none st._keys (autoKey c) d.parameterLongName hfresh] at hkv
      rcases List.mem_append.mp hkv with h1 | h2
      · obtain ⟨j, hj, he⟩ := hinv kv h1
        exact ⟨j, by omega, he⟩
      · simp only [List.mem_singleton] at h2
        exact ⟨c, by omega, by rw [h2]⟩
    obtain ⟨hok, hcnt, hparams, hkeys⟩ := ih st1 (c + 1) hinv1
    rw [hstep]
    refine ⟨hok, ?_, ?_, ?_⟩
    · rw [hcnt]
      simp only [List.length_cons]
      omega
    · rw [hparams, hp1, List.append_assoc]
      congr 1
      simp only [List.length_cons, List.range_succ_eq_map, List.map_cons, List.map_map,
        List.singleton_append]
      congr 1
      refine List.map_congr_left ?_
      intro i hi
      have he : c + 1 + i = c + (i + 1) := by omega
      simp [Function.comp, Nat.succ_eq_add_one, he]
    · intro kv hkv
      obtain ⟨j, hj, he⟩ := hkeys kv hkv
      refine ⟨j, ?_, he⟩
      simp only [List.length_cons]
      omega

/-- C6: a sequence of declarations on one provider in which no declaration supplies an
explicit key never fails; the granted keys are the auto keys of consecutive counter
values starting at the initial counter, they are pairwise distinct, and none of them
equals a key minted earlier in the process from a smaller counter value. -/
theorem C6_auto_keys (c0 : Nat) (defs : List (IBaseCommandLineDefinition V)) :
    (emptyProvider.declareAllAuto c0 defs).1 = Except.ok () ∧
    ((emptyProvider.declareAllAuto c0 defs).2.1._parameters.map (fun p => p._key)) =
      (List.range defs.length).map (fun i => autoKey (c0 + i)) ∧
    ((emptyProvider.declareAllAuto c0 defs).2.1._parameters.map (fun p => p._key)).Nodup ∧
    ∀ j, j < c0 →
      autoKey j ∉ (emptyProvider.declareAllAuto c0 defs).2.1._parameters.map
        (fun p => p._key) := by
  obtain ⟨hok, hcnt, hparams, hkeys⟩ := declareAllAuto_spec defs emptyProvider c0
    (by intro kv hkv; simp [emptyProvider] at hkv)
  have hmap : (emptyProvider.declareAllAuto c0 defs).2.1._parameters.map
      (fun p => p._key) = (List.range defs.length).map (fun i => autoKey (c0 + i)) := by
    rw [hparams]
    simp [emptyProvider]
  refine ⟨hok, hmap, ?_, ?_⟩
  · rw [hmap]
    refine List.Nodup.map ?_ (List.nodup_range _)
    intro a b hab
    have := autoKey_injective hab
    omega
  · intro j hj hmem
    rw [hmap] at hmem
    obtain ⟨i, _, he⟩ := List.mem_map.mp hmem
    have := autoKey_injective he
    omega

/-- C6 witness: a concrete all-auto declaration sequence succeeds. -/
theorem C6_witness : (emptyProvider.declareAllAuto 7 [strDefPlainP]).1 = Except.ok () :=
  (C6_auto_keys 7 [strDefPlainP]).1

/-- C10: the key counter is threaded from the first provider instance into the second,
modelling the static class field shared by all instances of the process; both all-auto
sequences succeed and no parameter key of the later provider coincides with any
parameter key of the earlier one. -/
theorem C10_cross_provider_keys (c0 : Nat) (defsA defsB : List (IBaseCommandLineDefinition V)) :
    (emptyProvider.declareAllAuto c0 defsA).1 = Except.ok () ∧
    (emptyProvider.declareAllAuto
      (emptyProvider.declareAllAuto c0 defsA).2.2 defsB).1 = Except.ok () ∧
    ∀ k, k ∈ (emptyProvider.declareAllAuto c0 defsA).2.1._parameters.map (fun p => p._key) →
      k ∉ (emptyProvider.declareAllAuto
        (emptyProvider.declareAllAuto c0 defsA).2.2 defsB).2.1._parameters.map
          (fun p => p._key) := by
  obtain ⟨hokA, hcntA, hparamsA, _⟩ := declareAllAuto_spec defsA emptyProvider c0
    (by intro kv hkv; simp [emptyProvider] at hkv)
  obtain ⟨hokB, _, hparamsB, _⟩ := declareAllAuto_spec defsB emptyProvider
    (emptyProvider.declareAllAuto c0 defsA).2.2
    (by intro kv hkv; simp [emptyProvider] at hkv)
  refine ⟨hokA, hokB, ?_⟩
  intro k hkA hkB
  rw [hparamsA] at hkA
  rw [hparamsB, hcntA] at hkB
  simp only [emptyProvider, List.nil_append, List.map_map, List.mem_map,
    Function.comp_apply] at hkA hkB
  obtain ⟨i, hi, hei⟩ := hkA
  obtain ⟨i2, _, hei2⟩ := hkB
  rw [← hei] at hei2
  have := autoKey_injective hei2
  have hilen : i < defsA.length := List.mem_range.mp hi
  omega

/-- C10 witness: with the counter carried across, two concrete providers declare
parameters without failure. -/
theorem C10_witness :
    (emptyProvider.declareAllAuto
      (emptyProvider.declareAllAuto 0 [strDefPlainP]).2.2 [strDefPlainQ]).1 =
      Except.ok () :=
  (C10_cross_provider_keys 0 [strDefPlainP] [strDefPlainQ]).2.1

theorem defineString_empty_state_explicit (d : IBaseCommandLineDefinition V) (c : Nat)
    (k : String) (hk : d.key = some k) :
    emptyProvider.defineStringParameter c d =
      (Except.ok 0,
       { _parameters := [{ _key := k, value := none }],
         _parameterMetadata := [(d.parameterLongName,
           { parameter := 0, required := d.required.getD false,
             defaultValue := d.defaultValue })],
         _keys := [(k, d.parameterLongName)],
         _argumentParserArgs := [{
           names := (match d.parameterShortName with | some s => [s] | none => []) ++
             [d.parameterLongName],
           options := [("help", ArgOpt.str d.description), ("dest", ArgOpt.str k)] }] },
       c) := by
  unfold CommandLineParameterProvider.defineStringParameter
  rw [hk, createParameter_ok_eq emptyProvider _ c c d [] (some k) k
    (getKey_explicit_fresh emptyProvider c d.parameterLongName k rfl)]
  simp [createdState, emptyProvider, mapSet]

/-- C9: two declarations with the same long name but distinct fresh explicit keys on a
fresh provider both succeed; afterwards the metadata map holds, under that long name,
only the required flag and defaultValue of the second declaration, referencing the second
parameter object, while the parameter store still holds both handles; the resolution
pass reads policy only from the metadata map, so the required/default policy of the
first declaration is never consulted. -/
theorem C9_same_longname_distinct_keys (d1 d2 : IBaseCommandLineDefinition V) (c : Nat)
    (k1 k2 : String) (hk1 : d1.key = some k1) (hk2 : d2.key = some k2) (hne : k1 ≠ k2)
    (hln : d1.parameterLongName = d2.parameterLongName) :
    (emptyProvider.defineStringParameter c d1).1 = Except.ok 0 ∧
    ((emptyProvider.defineStringParameter c d1).2.1.defineStringParameter
      (emptyProvider.defineStringParameter c d1).2.2 d2).1 = Except.ok 1 ∧
    mapGet ((emptyProvider.defineStringParameter c d1).2.1.defineStringParameter
      (emptyProvider.defineStringParameter c d1).2.2 d2).2.1._parameterMetadata
        d2.parameterLongName =
      some { parameter := 1, required := d2.required.getD false, defaultValue := d2.defaultValue } ∧
    ((emptyProvider.defineStringParameter c d1).2.1.defineStringParameter
      (emptyProvider.defineStringParameter c d1).2.2 d2).2.1._parameters =
      [{ _key := k1, value := none }, { _key := k2, value := none }] := by
  rw [defineString_empty_state_explicit d1 c k1 hk1]
  have hg2 : mapGet
      [(k1, d1.parameterLongName)] k2 = none := by
    simp [mapGet, hne]
  refine ⟨rfl, ?_⟩
  unfold CommandLineParameterProvider.defineStringParameter
  rw [hk2]
  rw [createParameter_ok_eq _ _ _ _ d2 [] (some k2) k2
    (getKey_explicit_fresh _ _ d2.parameterLongName k2 hg2)]
  refine ⟨rfl, ?_, ?_⟩
  · rw [hln]
    exact mapGet_mapSet_self _ _ _
  · rfl

/-- C9 witness: after declaring both concrete dup definitions, the metadata under dup
is the entry of the second declaration. -/
theorem C9_witness :
    mapGet ((emptyProvider.defineStringParameter 0 strDefDupA).2.1.defineStringParameter
      (emptyProvider.defineStringParameter 0 strDefDupA).2.2 strDefDupB).2.1._parameterMetadata
      "dup" = some { parameter := 1, required := false, defaultValue := none } :=
  (C9_same_longname_distinct_keys strDefDupA strDefDupB 0 "ka" "kb" rfl rfl
    (by decide) rfl).2.2.1
